import Mathlib

/-!
# Verification of the marketplace order/cart core

Shallow embedding of the order lifecycle and cart-to-order transition of the
`marketplace` Django application, together with theorems settling the
specification's claims about it.

Source files embedded:
* `marketplace/cart/cart.py` — the session cart (`Cart.add`, `Cart.remove`,
  `Cart.clear`, `Cart.get_cart_total`);
* `marketplace/shopapp/models.py` — `Order`, `OrderItem`, `OrderDeliveryType`,
  `Payment` records;
* `marketplace/shopapp/serializers.py` — `OrderConfirmSerializer.validate`,
  `PaymentSerializer.validate_year/month/code`;
* `marketplace/shopapp/views.py` — `OrderView.post` (checkout),
  `OrderDetailView.post` (confirmation), `PaymentView.post` (payment).

Modelling conventions:
* Python `Decimal` values (prices, costs) are modelled as `ℚ` (exact decimal
  arithmetic, no floating point).
* Python `int` is modelled as `ℤ`; database primary keys as `ℕ`.
* Strings are Lean `String`s; `str.isdigit` is modelled over ASCII digits.
* Database state is explicit (`DB`), HTTP sessions are explicit (`Session`);
  each Django view becomes a function from (state, request data) to
  (response, new state).  A request is treated as one atomic step.
* An uncaught Python exception escaping a view (Django returns HTTP 500) is
  the `Response.serverError` outcome; all ORM writes performed before the
  exception remain persisted, exactly as in the source, which opens no
  transaction.
-/

namespace Marketplace

/-! ## Catalog products

Only the fields the cart/order core reads: `Product.id` (pk) and
`Product.price`.  The catalog itself is an external collaborator; it is
modelled as the list of existing products. -/

structure Product where
  id : Nat
  price : ℚ
deriving DecidableEq, Repr

/-- Embeds `Product.objects.get(pk=...)`: first product with the given id, `none`
when the lookup raises `Product.DoesNotExist`. -/
def findProduct (catalog : List Product) (pid : Nat) : Option Product :=
  catalog.find? (fun p => p.id = pid)

/-! ## Cart (`marketplace/cart/cart.py`)

The session cart is `{'items': [...]}` where each item is
`{'product_id': pid, 'product_data': {..., 'price': p, 'count': c}}`.
Of `product_data` (a serialized catalog snapshot) only the fields read by the
cart arithmetic are kept: the snapshot `price` and the mutable `count`. -/

structure CartItem where
  product_id : Nat
  price : ℚ
  count : ℤ
deriving DecidableEq, Repr

/-- The `for item in self.cart['items']` loop of `Cart.add`: bump the count of
the first item with the given `product_id` (then the method returns);
`none` when no item matches and the loop falls through. -/
def bumpFirst (items : List CartItem) (pid : Nat) (q : ℤ) : Option (List CartItem) :=
  match items with
  | [] => none
  | it :: rest =>
    if it.product_id = pid then
      some ({ it with count := it.count + q } :: rest)
    else
      (bumpFirst rest pid q).map (fun l => it :: l)

/-- Embeds `Cart.add(product_id, quantity)`: if the product is already in the cart its
count is incremented in place; otherwise the product is resolved through the
catalog (`Product.objects.get`, `none` = uncaught `DoesNotExist`, the cart is
left unmodified) and appended with the given quantity. -/
def cartAdd (catalog : List Product) (items : List CartItem) (pid : Nat) (q : ℤ) :
    Option (List CartItem) :=
  match bumpFirst items pid q with
  | some items' => some items'
  | none =>
    match findProduct catalog pid with
    | none => none
    | some p => some (items ++ [⟨pid, p.price, q⟩])

/-- Embeds `Cart.remove(product_id, quantity)`: the source iterates over the item
list, decrements the count of a matching item in place and calls
`list.remove(item)` when the count drops to `≤ 0`.  CPython semantics of
removing the current element while iterating: the element directly after the
removed one is skipped by the loop (kept unchanged), iteration continues
after it.  No-op when the product is absent. -/
def cartRemove (items : List CartItem) (pid : Nat) (q : ℤ) : List CartItem :=
  match items with
  | [] => []
  | it :: rest =>
    if it.product_id = pid then
      if it.count - q ≤ 0 then
        match rest with
        | [] => []
        | x :: xs => x :: cartRemove xs pid q
      else
        { it with count := it.count - q } :: cartRemove rest pid q
    else
      it :: cartRemove rest pid q

/-- Embeds `Cart.clear()` (and the `cart.cart.clear()` call in checkout, which empties
the whole session dict; on next access the cart is re-initialised to
`{'items': []}`). -/
def cartClear : List CartItem := []

/-- Embeds `Cart.get_cart_total()`: Σ snapshot price × count, exact `Decimal`
arithmetic. -/
def getCartTotal (items : List CartItem) : ℚ :=
  (items.map (fun it => it.price * (it.count : ℚ))).sum

/-- One cart API call (`CartAPI.post` = add, `CartAPI.delete` = remove); the
views pass `int(request.data['count'])` through unchecked, so any integer
quantity can reach `add`/`remove`. -/
inductive CartOp where
  | add (pid : Nat) (q : ℤ)
  | remove (pid : Nat) (q : ℤ)
deriving DecidableEq, Repr

/-- Effect of one cart call on the session cart.  A failing `add` (unknown
product: `Product.objects.get` raises before any mutation) leaves the cart
unchanged and the request errors out. -/
def applyCartOp (catalog : List Product) (items : List CartItem) : CartOp → List CartItem
  | .add pid q =>
    match cartAdd catalog items pid q with
    | some items' => items'
    | none => items
  | .remove pid q => cartRemove items pid q

/-- Effect of a sequence of cart calls. -/
def applyCartOps (catalog : List Product) (items : List CartItem) (ops : List CartOp) :
    List CartItem :=
  ops.foldl (applyCartOp catalog) items

/-- The cart invariant claimed in the spec: at most one line per distinct
`product_id`, and every line's count is positive. -/
def CartInv (items : List CartItem) : Prop :=
  (items.map CartItem.product_id).Nodup ∧ ∀ it ∈ items, 0 < it.count

instance (items : List CartItem) : Decidable (CartInv items) := by
  unfold CartInv; infer_instance

/-! ## Persistent records (`marketplace/shopapp/models.py`)

`Order`: `profile` is a nullable foreign key (modelled as `Option` of the
profile's pk); `deliveryType`, `paymentType`, `status`, `city`, `address` are
`CharField`s with no declared default, so `Order.objects.create(profile=...)`
persists them as `""`; `totalCost` is a `DecimalField` with default `0`.
`createdAt` (auto timestamp) and image/display data are irrelevant to the
claims and omitted. -/

structure Order where
  id : Nat
  profile : Option Nat
  deliveryType : String
  paymentType : String
  totalCost : ℚ
  status : String
  city : String
  address : String
deriving DecidableEq, Repr

/-- Embeds `OrderItem`: an order fk, a product fk and a quantity. -/
structure OrderItem where
  order : Nat
  product : Nat
  quantity : ℤ
deriving DecidableEq, Repr

/-- Embeds `OrderDeliveryType` (reference data). -/
structure OrderDeliveryType where
  type : String
  min_cost : ℚ
  delivery_cost : ℚ
deriving DecidableEq, Repr

/-- Embeds `Payment`: masked card data attached to an order. -/
structure Payment where
  order : Nat
  number : String
  name : String
  year : String
  month : String
  code : String
deriving DecidableEq, Repr

/-- The relational store, as far as the order/cart core reads and writes it.
`nextOrderId` models the autoincrement pk sequence for `Order`. -/
structure DB where
  orders : List Order
  orderItems : List OrderItem
  payments : List Payment
  products : List Product
  deliveryTypes : List OrderDeliveryType
  nextOrderId : Nat
deriving DecidableEq, Repr

/-- The per-session state read by the order views: the session cart and the
optional `session['order_id']` key consulted by `OrderView.post`.  Nothing in
the repository ever writes `order_id`, so on every session reachable from a
fresh one it is `none`. -/
structure Session where
  cart : List CartItem
  order_id : Option Nat
deriving DecidableEq, Repr

/-- Embeds `Order.objects.get(pk=...)`; `none` models `Order.DoesNotExist`. -/
def findOrder (orders : List Order) (oid : Nat) : Option Order :=
  orders.find? (fun o => o.id = oid)

/-- Embeds `order.save()` after mutating the instance: replace the row(s) with the
given pk. -/
def updateOrder (orders : List Order) (oid : Nat) (f : Order → Order) : List Order :=
  orders.map (fun o => if o.id = oid then f o else o)

/-- The HTTP outcomes produced by the three order views.  `badRequest` carries
the DRF error detail as (field, message) pairs (`non_field_errors` for
serializer-level `ValidationError`); `serverError` is an exception escaping
the view (Django's HTTP 500). -/
inductive Response where
  | ok200
  | created (orderId : Nat)
  | badRequest (errors : List (String × String))
  | forbidden (detail : String)
  | notFound (detail : String)
  | serverError
deriving DecidableEq, Repr

def Response.isForbidden : Response → Bool
  | .forbidden _ => true
  | _ => false

/-! ## Field validation (`marketplace/shopapp/serializers.py`)

`str.isdigit` over ASCII: nonempty and all characters in `0..9`.
`int(s)` on such a string is ordinary decimal parsing. -/

def isDigits (s : String) : Bool :=
  s.length > 0 && s.data.all Char.isDigit

def strToNat (s : String) : Nat :=
  s.data.foldl (fun a c => a * 10 + (c.toNat - 48)) 0

/-- DRF's generic max-length message for a `CharField` derived from the model
field. -/
def maxLenMsg (n : Nat) : String :=
  "Ensure this field has no more than " ++ toString n ++ " characters."

/-- Embeds `PaymentSerializer.validate_year`: accepted iff `value.isdigit()` and
`len(value) == 4`. -/
def validate_year (v : String) : Bool :=
  isDigits v && v.length = 4

/-- Embeds `PaymentSerializer.validate_month`: accepted iff `value.isdigit()` and
`1 <= int(value) <= 12`.  (No length check in the source.) -/
def validate_month (v : String) : Bool :=
  isDigits v && 1 ≤ strToNat v && strToNat v ≤ 12

/-- Embeds `PaymentSerializer.validate_code`: accepted iff `value.isdigit()` and
`3 <= len(value) <= 4`. -/
def validate_code (v : String) : Bool :=
  isDigits v && 3 ≤ v.length && v.length ≤ 4

/-- The card payload `{number, name, year, month, code}` posted to
`/api/payment/{id}`. -/
structure PaymentPayload where
  number : String
  name : String
  year : String
  month : String
  code : String
deriving DecidableEq, Repr

/-- Errors on the `number` field: only the model-derived
`CharField(max_length=8)` validator. -/
def numberErrors (v : String) : List (String × String) :=
  if v.length > 8 then [("number", maxLenMsg 8)] else []

/-- Errors on the `name` field: only `CharField(max_length=100)`. -/
def nameErrors (v : String) : List (String × String) :=
  if v.length > 100 then [("name", maxLenMsg 100)] else []

/-- Errors on the `year` field: the model-derived max-length validator runs
first, then `validate_year`. -/
def yearErrors (v : String) : List (String × String) :=
  if v.length > 4 then [("year", maxLenMsg 4)]
  else if !validate_year v then [("year", "Expiry year must be a 4-digit number.")]
  else []

/-- Errors on the `month` field: max-length 2 first, then `validate_month`. -/
def monthErrors (v : String) : List (String × String) :=
  if v.length > 2 then [("month", maxLenMsg 2)]
  else if !validate_month v then
    [("month", "Expiry month must be a number between 01 and 12.")]
  else []

/-- Errors on the `code` field: max-length 4 first, then `validate_code`. -/
def codeErrors (v : String) : List (String × String) :=
  if v.length > 4 then [("code", maxLenMsg 4)]
  else if !validate_code v then [("code", "CVV must be a 3 or 4-digit number.")]
  else []

/-- Field-scoped errors produced by `PaymentSerializer.is_valid()`: each
`CharField` first runs its model-derived max-length validator, then the
custom `validate_<field>` hook. -/
def paymentErrors (p : PaymentPayload) : List (String × String) :=
  numberErrors p.number ++ nameErrors p.name ++ yearErrors p.year
    ++ monthErrors p.month ++ codeErrors p.code

/-- The confirmation payload posted to `/api/order/{id}`:
`{deliveryType, paymentType, city, address, totalCost}`.  (The serializer's
writable `status` field is immediately overwritten by the view with
`"confirmed"`, so it is not modelled.) -/
structure ConfirmPayload where
  deliveryType : String
  paymentType : String
  city : String
  address : String
  totalCost : ℚ
deriving DecidableEq, Repr

/-- Model-derived per-field validation of `OrderConfirmSerializer`
(`deliveryType`/`paymentType` ≤ 20 chars, `city`/`address` ≤ 100 chars;
`totalCost`'s 13-digit bound never bites on the claims' inputs and is not
modelled). -/
def confirmFieldErrors (p : ConfirmPayload) : List (String × String) :=
  (if p.deliveryType.length > 20 then [("deliveryType", maxLenMsg 20)] else [])
    ++ (if p.paymentType.length > 20 then [("paymentType", maxLenMsg 20)] else [])
    ++ (if p.city.length > 100 then [("city", maxLenMsg 100)] else [])
    ++ (if p.address.length > 100 then [("address", maxLenMsg 100)] else [])

/-- Embeds `OrderConfirmSerializer.validate`: look up `OrderDeliveryType` by
`deliveryType` (`.get`, i.e. first match; `DoesNotExist` becomes a
serializer-level `ValidationError` naming the unsupported type).  For the
literal type `'free'` with `totalCost > min_cost` the data passes through
unchanged; otherwise `delivery_cost` is added to `totalCost`.  Runs after the
per-field validators. -/
def orderConfirmValidate (dts : List OrderDeliveryType) (p : ConfirmPayload) :
    Except (List (String × String)) ConfirmPayload :=
  if confirmFieldErrors p = [] then
    match dts.find? (fun dt => dt.type = p.deliveryType) with
    | none => .error [("non_field_errors", "Unsupported delivery type: " ++ p.deliveryType)]
    | some dt =>
      if p.deliveryType = "free" ∧ dt.min_cost < p.totalCost then
        .ok p
      else
        .ok { p with totalCost := p.totalCost + dt.delivery_cost }
  else
    .error (confirmFieldErrors p)

/-! ## Checkout (`OrderView.post`, views.py lines 232-267) -/

/-- Append one `OrderItem` row (`OrderItem.objects.create`). -/
def addItem (db : DB) (oid pid : Nat) (cnt : ℤ) : DB :=
  { db with orderItems := db.orderItems ++ [⟨oid, pid, cnt⟩] }

/-- The `for product in products_data` loop of `OrderView.post`: one
`OrderItem.objects.create(order=..., product=Product.objects.get(id=...))`
per posted line.  A missing product raises `Product.DoesNotExist`
(uncaught, `false`): the loop stops, but every row already created — the
`Order` and the preceding `OrderItem`s — stays persisted, since the view
opens no transaction. -/
def createOrderItems (db : DB) (oid : Nat) : List (Nat × ℤ) → Bool × DB
  | [] => (true, db)
  | (pid, cnt) :: rest =>
    match findProduct db.products pid with
    | none => (false, db)
    | some _ => createOrderItems (addItem db oid pid cnt) oid rest

/-- A freshly created `Order.objects.create(profile=request.user.profile)`:
`CharField`s default to `""`, `totalCost` to `0`. -/
def newOrder (oid : Nat) (profile : Nat) : Order :=
  ⟨oid, some profile, "", "", 0, "", "", ""⟩

/-- Embeds `OrderView.post` (checkout).  `products_data` is the client-posted list of
`{'id': pid, 'count': cnt}` lines (read from the request body, independently
of the session cart).  The order row is `Order.objects.get(pk=session['order_id'])`
when that session key is present (a missing row raises, HTTP 500), else a
fresh `Order.objects.create`.  Then the item-creation loop runs; on success
`totalCost` is set from `cart.get_cart_total()`, `status` to `"accepted"`,
the session cart is emptied and `order_id` dropped, and
`{'orderId': order.pk}` is returned with HTTP 201. -/
def orderViewPost (db : DB) (sess : Session) (profile : Nat)
    (products_data : List (Nat × ℤ)) : Response × DB × Session :=
  let step := fun (db₁ : DB) (oid : Nat) =>
    match createOrderItems db₁ oid products_data with
    | (false, db₂) => (Response.serverError, db₂, sess)
    | (true, db₂) =>
      let db₃ := { db₂ with
        orders := updateOrder db₂.orders oid
          (fun o => { o with totalCost := getCartTotal sess.cart, status := "accepted" }) }
      (Response.created oid, db₃, { cart := cartClear, order_id := none })
  match sess.order_id with
  | some oid =>
    match findOrder db.orders oid with
    | none => (Response.serverError, db, sess)
    | some order => step db order.id
  | none =>
    let oid := db.nextOrderId
    let db₁ := { db with
      orders := db.orders ++ [newOrder oid profile]
      nextOrderId := db.nextOrderId + 1 }
    step db₁ oid

/-! ## Order confirmation (`OrderDetailView.post`, views.py lines 288-318)

The view requires an authenticated user (`IsAuthenticated`); `requester` is
the pk of `request.user.profile`. -/

def orderDetailPost (db : DB) (requester : Nat) (oid : Nat) (p : ConfirmPayload) :
    Response × DB :=
  match findOrder db.orders oid with
  | none => (Response.notFound "Order not found.", db)
  | some order =>
    if order.profile ≠ some requester then
      (Response.forbidden "You do not have permission to update this order.", db)
    else if order.status = "paid" then
      (Response.forbidden "Paid orders cannot be updated.", db)
    else
      match orderConfirmValidate db.deliveryTypes p with
      | .error errs => (Response.badRequest errs, db)
      | .ok v =>
        -- serializer.save() writes the validated fields, then the view sets
        -- status = "confirmed" and saves again; one request, net effect below.
        (Response.ok200,
          { db with orders := updateOrder db.orders oid (fun o =>
              { o with
                deliveryType := v.deliveryType
                paymentType := v.paymentType
                city := v.city
                address := v.address
                totalCost := v.totalCost
                status := "confirmed" }) })

/-! ## Payment (`PaymentView.post`, views.py lines 321-351)

The view instantiates `PaymentSerializer(order, data=request.data)` — with the
**Order** as the serializer instance — so `serializer.save()` dispatches to
`ModelSerializer.update(order, validated_data)`: the card fields, none of
which is an `Order` model field, are set as plain attributes on the order
instance and `order.save()` re-saves the unchanged row.  The serializer's
`create` method (the only place a `Payment` row is built, and which would
need the never-supplied `context['order']`) is not reached.  Hence a
successful request persists **no** `Payment` record; it only advances
`order.status` to `"paid"`. -/

def paymentViewPost (db : DB) (requester : Nat) (oid : Nat) (p : PaymentPayload) :
    Response × DB :=
  match findOrder db.orders oid with
  | none => (Response.notFound "Order not found.", db)
  | some order =>
    if order.profile ≠ some requester then
      (Response.forbidden "You do not have permission to confirm payment for this order.", db)
    else if order.status = "paid" then
      (Response.forbidden "Paid orders cannot be updated.", db)
    else
      match paymentErrors p with
      | [] =>
        (Response.ok200,
          { db with orders := updateOrder db.orders oid (fun o => { o with status := "paid" }) })
      | errs => (Response.badRequest errs, db)

/-! ## The core operations as a transition system (for the temporal claims) -/

/-- Whole-system state: the relational store plus the acting session. -/
structure Sys where
  db : DB
  session : Session
deriving DecidableEq, Repr

/-- One core operation: checkout, confirmation or payment, with the request
data it carries.  `profile` is the acting user's profile pk. -/
inductive Op where
  | checkout (profile : Nat) (products_data : List (Nat × ℤ))
  | confirm (profile : Nat) (oid : Nat) (p : ConfirmPayload)
  | pay (profile : Nat) (oid : Nat) (p : PaymentPayload)
deriving DecidableEq, Repr

/-- Effect of one core operation on the whole system (confirmation and payment
do not touch the session). -/
def applyOp (s : Sys) : Op → Sys
  | .checkout pr pd =>
    let r := orderViewPost s.db s.session pr pd
    ⟨r.2.1, r.2.2⟩
  | .confirm pr oid p => ⟨(orderDetailPost s.db pr oid p).2, s.session⟩
  | .pay pr oid p => ⟨(paymentViewPost s.db pr oid p).2, s.session⟩

/-- Effect of a sequence of core operations. -/
def applyOps (s : Sys) (ops : List Op) : Sys :=
  ops.foldl applyOp s

/-- Position of a status string along the `accepted → confirmed → paid`
chain (`0` for the initial `""` or anything else). -/
def statusRank (s : String) : Nat :=
  if s = "accepted" then 1
  else if s = "confirmed" then 2
  else if s = "paid" then 3
  else 0

/-- States actually reachable by this code base: no session ever carries
`order_id` (nothing in the repository writes that key), order pks are unique,
and the autoincrement counter is ahead of every existing pk. -/
def SysInv (s : Sys) : Prop :=
  s.session.order_id = none ∧
    (s.db.orders.map Order.id).Nodup ∧
    ∀ o ∈ s.db.orders, o.id < s.db.nextOrderId

instance (s : Sys) : Decidable (SysInv s) := by
  unfold SysInv; infer_instance

/-! ## Concrete data used by witnesses and counterexamples

Mirrors the fixtures of `shopapp/test_views.py`: two catalog products at
10.00 and 30.00, one order (pk 1, owner profile pk 1, `totalCost` 50,
status `confirmed`), and the `free` delivery configuration
`{min_cost: 2000, delivery_cost: 200}`. -/

def demoProducts : List Product := [⟨1, 10⟩, ⟨2, 30⟩]

def dtFree : OrderDeliveryType := ⟨"free", 2000, 200⟩

def demoOrder : Order := ⟨1, some 1, "", "online", 50, "confirmed", "", ""⟩

def demoDB : DB := ⟨[demoOrder], [], [], demoProducts, [dtFree], 2⟩

/-- The valid card payload used throughout `PaymentViewTests`. -/
def validCard : PaymentPayload := ⟨"12345678", "Annoying Orange", "2025", "02", "123"⟩

def demoSys : Sys := ⟨demoDB, ⟨[], none⟩⟩

/-- The demo order after it has been paid. -/
def paidOrder : Order := ⟨1, some 1, "", "online", 50, "paid", "", ""⟩

def paidDB : DB := ⟨[paidOrder], [], [], demoProducts, [dtFree], 2⟩

/-- A fully valid confirmation payload: delivery type `free`, client-supplied
subtotal 1999.00 (the spec's own worked example). -/
def confirmFree1999 : ConfirmPayload := ⟨"free", "online", "London", "221b, Bakers str.", 1999⟩

/-- The same confirmation payload with subtotal 2999.00 (above the
free-delivery threshold). -/
def confirmFree2999 : ConfirmPayload := ⟨"free", "online", "London", "221b, Bakers str.", 2999⟩

/-- A card payload whose expiry month is the single digit `"1"`. -/
def cardMonth1 : PaymentPayload := ⟨"12345678", "Annoying Orange", "2025", "1", "123"⟩

/-- The invalid card payload of `test_post_payment_details_invalid_data`:
month `"13"`. -/
def cardMonth13 : PaymentPayload := ⟨"12345678", "Annoying Orange", "2025", "13", "123"⟩

/-! ## Validation characterization lemmas -/

theorem numberErrors_eq_nil (v : String) : numberErrors v = [] ↔ v.length ≤ 8 := by
  unfold numberErrors
  by_cases h : v.length > 8
  · have h' : ¬ v.length ≤ 8 := by omega
    simp [h, h']
  · have h' : v.length ≤ 8 := by omega
    simp [h, h']

theorem nameErrors_eq_nil (v : String) : nameErrors v = [] ↔ v.length ≤ 100 := by
  unfold nameErrors
  by_cases h : v.length > 100
  · have h' : ¬ v.length ≤ 100 := by omega
    simp [h, h']
  · have h' : v.length ≤ 100 := by omega
    simp [h, h']

theorem yearErrors_eq_nil (v : String) : yearErrors v = [] ↔ validate_year v = true := by
  unfold yearErrors
  by_cases h4 : v.length > 4
  · have hv : ¬ validate_year v = true := by
      simp only [validate_year, Bool.and_eq_true, decide_eq_true_eq]
      rintro ⟨-, h⟩
      omega
    simp [h4, hv]
  · rw [if_neg h4]
    by_cases hv : validate_year v <;> simp [hv]

theorem monthErrors_eq_nil (v : String) :
    monthErrors v = [] ↔ v.length ≤ 2 ∧ validate_month v = true := by
  unfold monthErrors
  by_cases h2 : v.length > 2
  · have h2' : ¬ v.length ≤ 2 := by omega
    simp [h2, h2']
  · have h2' : v.length ≤ 2 := by omega
    rw [if_neg h2]
    by_cases hv : validate_month v <;> simp [hv, h2']

theorem codeErrors_eq_nil (v : String) : codeErrors v = [] ↔ validate_code v = true := by
  unfold codeErrors
  by_cases h4 : v.length > 4
  · have hv : ¬ validate_code v = true := by
      simp only [validate_code, Bool.and_eq_true, decide_eq_true_eq]
      rintro ⟨-, h⟩
      omega
    simp [h4, hv]
  · rw [if_neg h4]
    by_cases hv : validate_code v <;> simp [hv]

/-! ## Cart lemmas -/

theorem bumpFirst_eq_none {items : List CartItem} {pid : Nat} {q : ℤ}
    (h : ∀ it ∈ items, it.product_id ≠ pid) : bumpFirst items pid q = none := by
  induction items with
  | nil => rfl
  | cons it rest ih =>
    have hit := h it (List.mem_cons_self it rest)
    simp only [bumpFirst, if_neg hit]
    rw [ih (fun x hx => h x (List.mem_cons_of_mem it hx))]
    rfl

theorem bumpFirst_map_pid {items items' : List CartItem} {pid : Nat} {q : ℤ}
    (h : bumpFirst items pid q = some items') :
    items'.map CartItem.product_id = items.map CartItem.product_id := by
  induction items generalizing items' with
  | nil => simp [bumpFirst] at h
  | cons it rest ih =>
    by_cases hp : it.product_id = pid
    · simp only [bumpFirst, if_pos hp] at h
      cases h
      simp
    · simp only [bumpFirst, if_neg hp, Option.map_eq_some'] at h
      obtain ⟨l, hl, rfl⟩ := h
      simp [ih hl]

theorem mem_of_mem_bumpFirst {items items' : List CartItem} {pid : Nat} {q : ℤ}
    (h : bumpFirst items pid q = some items') {it' : CartItem} (h' : it' ∈ items') :
    it' ∈ items ∨ ∃ it ∈ items, it' = { it with count := it.count + q } := by
  induction items generalizing items' with
  | nil => simp [bumpFirst] at h
  | cons it rest ih =>
    by_cases hp : it.product_id = pid
    · simp only [bumpFirst, if_pos hp] at h
      cases h
      rcases List.mem_cons.mp h' with h' | h'
      · exact Or.inr ⟨it, List.mem_cons_self it rest, h'⟩
      · exact Or.inl (List.mem_cons_of_mem it h')
    · simp only [bumpFirst, if_neg hp, Option.map_eq_some'] at h
      obtain ⟨l, hl, rfl⟩ := h
      rcases List.mem_cons.mp h' with h' | h'
      · exact Or.inl (h' ▸ List.mem_cons_self it rest)
      · rcases ih hl h' with h'' | ⟨x, hx, hx'⟩
        · exact Or.inl (List.mem_cons_of_mem it h'')
        · exact Or.inr ⟨x, List.mem_cons_of_mem it hx, hx'⟩

theorem bumpFirst_matched {items items' : List CartItem} {pid : Nat} {q : ℤ}
    (h : bumpFirst items pid q = some items') {it' : CartItem} (h' : it' ∈ items')
    (hid : it' ∈ items → False) : ∃ it ∈ items, it' = { it with count := it.count + q } := by
  rcases mem_of_mem_bumpFirst h h' with h'' | h''
  · exact absurd h'' hid
  · exact h''

/-- A matching item makes the loop of `Cart.add` hit its early return. -/
theorem bumpFirst_ne_none {items : List CartItem} {pid : Nat} {it : CartItem}
    (hit : it ∈ items) (hc : it.product_id = pid) (q : ℤ) :
    bumpFirst items pid q ≠ none := by
  induction items with
  | nil => simp at hit
  | cons a rest ih =>
    rcases List.mem_cons.mp hit with h1 | h1
    · subst h1
      simp [bumpFirst, hc]
    · by_cases hap : a.product_id = pid
      · simp [bumpFirst, hap]
      · simp only [bumpFirst, if_neg hap, ne_eq, Option.map_eq_none']
        exact ih h1

theorem cartRemove_miss {it : CartItem} {pid : Nat} (rest : List CartItem) (q : ℤ)
    (h : it.product_id ≠ pid) :
    cartRemove (it :: rest) pid q = it :: cartRemove rest pid q := by
  cases rest <;> simp [cartRemove, h]

theorem cartRemove_keep {it : CartItem} {pid : Nat} {q : ℤ} (rest : List CartItem)
    (h : it.product_id = pid) (hc : ¬ it.count - q ≤ 0) :
    cartRemove (it :: rest) pid q = { it with count := it.count - q } :: cartRemove rest pid q := by
  cases rest <;> simp [cartRemove, h, hc]

theorem cartRemove_drop_last {it : CartItem} {pid : Nat} {q : ℤ}
    (h : it.product_id = pid) (hc : it.count - q ≤ 0) :
    cartRemove [it] pid q = [] := by
  simp [cartRemove, h, hc]

theorem cartRemove_drop_skip {it x : CartItem} {pid : Nat} {q : ℤ} (xs : List CartItem)
    (h : it.product_id = pid) (hc : it.count - q ≤ 0) :
    cartRemove (it :: x :: xs) pid q = x :: cartRemove xs pid q := by
  simp [cartRemove, h, hc]

theorem cartRemove_map_pid_sublist (items : List CartItem) (pid : Nat) (q : ℤ) :
    ((cartRemove items pid q).map CartItem.product_id).Sublist
      (items.map CartItem.product_id) := by
  induction items, pid, q using cartRemove.induct with
  | case1 p q => exact List.Sublist.refl _
  | case2 q x hc => rw [cartRemove_drop_last rfl hc]; simp
  | case3 q x hc y xs ih =>
    rw [cartRemove_drop_skip xs rfl hc]
    simp only [List.map_cons]
    exact List.Sublist.cons _ (List.Sublist.cons₂ _ ih)
  | case4 q x xs hc ih =>
    rw [cartRemove_keep xs rfl hc]
    simp only [List.map_cons]
    exact List.Sublist.cons₂ _ ih
  | case5 p q x xs hp ih =>
    rw [cartRemove_miss xs q hp]
    simp only [List.map_cons]
    exact List.Sublist.cons₂ _ ih

theorem mem_of_mem_cartRemove {items : List CartItem} {pid : Nat} {q : ℤ} {it' : CartItem}
    (h' : it' ∈ cartRemove items pid q) :
    it' ∈ items ∨ ∃ it ∈ items, it' = { it with count := it.count - q } ∧ 0 < it.count - q := by
  induction items, pid, q using cartRemove.induct generalizing it' with
  | case1 p q => simp [cartRemove] at h'
  | case2 q x hc => rw [cartRemove_drop_last rfl hc] at h'; simp at h'
  | case3 q x hc y xs ih =>
    rw [cartRemove_drop_skip xs rfl hc] at h'
    rcases List.mem_cons.mp h' with h' | h'
    · exact Or.inl (by simp [h'])
    · rcases ih h' with h'' | ⟨z, hz, hz'⟩
      · exact Or.inl (by simp [List.mem_cons_of_mem, h''])
      · exact Or.inr ⟨z, by simp [List.mem_cons_of_mem, hz], hz'⟩
  | case4 q x xs hc ih =>
    rw [cartRemove_keep xs rfl hc] at h'
    rcases List.mem_cons.mp h' with h' | h'
    · exact Or.inr ⟨x, List.mem_cons_self x xs, h', lt_of_not_le hc⟩
    · rcases ih h' with h'' | ⟨z, hz, hz'⟩
      · exact Or.inl (List.mem_cons_of_mem x h'')
      · exact Or.inr ⟨z, List.mem_cons_of_mem x hz, hz'⟩
  | case5 p q x xs hp ih =>
    rw [cartRemove_miss xs q hp] at h'
    rcases List.mem_cons.mp h' with h' | h'
    · exact Or.inl (h' ▸ List.mem_cons_self x xs)
    · rcases ih h' with h'' | ⟨z, hz, hz'⟩
      · exact Or.inl (List.mem_cons_of_mem x h'')
      · exact Or.inr ⟨z, List.mem_cons_of_mem x hz, hz'⟩

/-- Lemma: `Cart.remove` preserves the cart invariant. -/
theorem cartRemove_inv {items : List CartItem} (h : CartInv items) (pid : Nat) (q : ℤ) :
    CartInv (cartRemove items pid q) := by
  obtain ⟨hnd, hpos⟩ := h
  refine ⟨hnd.sublist (cartRemove_map_pid_sublist items pid q), ?_⟩
  intro it' h'
  rcases mem_of_mem_cartRemove h' with h'' | ⟨y, _, rfl, hy'⟩
  · exact hpos it' h''
  · exact hy'

/-- Lemma: `Cart.add` with a positive quantity preserves the cart invariant. -/
theorem cartAdd_inv {catalog : List Product} {items items' : List CartItem}
    {pid : Nat} {q : ℤ} (h : CartInv items) (hq : 0 < q)
    (hadd : cartAdd catalog items pid q = some items') : CartInv items' := by
  obtain ⟨hnd, hpos⟩ := h
  unfold cartAdd at hadd
  cases hb : bumpFirst items pid q with
  | some l =>
    rw [hb] at hadd
    cases hadd
    refine ⟨(bumpFirst_map_pid hb) ▸ hnd, ?_⟩
    intro it' h'
    rcases mem_of_mem_bumpFirst hb h' with h'' | ⟨x, hx, rfl⟩
    · exact hpos it' h''
    · exact add_pos_of_nonneg_of_pos (le_of_lt (hpos x hx)) hq
  | none =>
    rw [hb] at hadd
    cases hf : findProduct catalog pid with
    | none => rw [hf] at hadd; cases hadd
    | some p =>
      rw [hf] at hadd
      cases hadd
      have hnp : ∀ it ∈ items, it.product_id ≠ pid :=
        fun it hit hc => bumpFirst_ne_none hit hc q hb
      constructor
      · simp only [List.map_append, List.map_cons, List.map_nil]
        rw [List.nodup_append]
        refine ⟨hnd, List.nodup_singleton _, ?_⟩
        intro a ha hb'
        simp only [List.mem_singleton] at hb'
        subst hb'
        obtain ⟨it, hit, rfl⟩ := List.mem_map.mp ha
        exact hnp it hit rfl
      · intro it' h'
        rcases List.mem_append.mp h' with h'' | h''
        · exact hpos it' h''
        · simp only [List.mem_singleton] at h''
          subst h''
          exact hq

/-- Quantities for which the spec's cart invariant is actually maintained:
`add` must be called with a positive quantity (the HTTP layer does not
enforce this). -/
def CartOp.positiveAdd : CartOp → Prop
  | .add _ q => 0 < q
  | .remove _ _ => True

instance (op : CartOp) : Decidable op.positiveAdd := by
  cases op <;> simp only [CartOp.positiveAdd] <;> infer_instance

theorem applyCartOp_inv {catalog : List Product} {items : List CartItem}
    (h : CartInv items) {op : CartOp} (hop : op.positiveAdd) :
    CartInv (applyCartOp catalog items op) := by
  cases op with
  | add pid q =>
    simp only [applyCartOp]
    cases ha : cartAdd catalog items pid q with
    | none => exact h
    | some items' => exact cartAdd_inv h hop ha
  | remove pid q => exact cartRemove_inv h pid q

theorem applyCartOps_inv {catalog : List Product} {items : List CartItem}
    (h : CartInv items) {ops : List CartOp} (hops : ∀ op ∈ ops, op.positiveAdd) :
    CartInv (applyCartOps catalog items ops) := by
  induction ops generalizing items with
  | nil => exact h
  | cons op rest ih =>
    simp only [applyCartOps, List.foldl_cons]
    exact ih (applyCartOp_inv h (hops op (List.mem_cons_self op rest)))
      (fun o ho => hops o (List.mem_cons_of_mem op ho))

/-- Claim C5 — counterexample.  The claim quantifies over *every* sequence of
cart add/remove calls, but the HTTP layer (`CartAPI.post`) passes any integer
`count` straight into `Cart.add`, and `Cart.add` never checks the sign: the
single call `add(product_id=1, quantity=0)` leaves a persisted cart line with
count `0`, violating "every line's count is a positive integer". -/
theorem cart_add_zero_quantity_breaks_invariant :
    applyCartOps demoProducts [] [CartOp.add 1 0] = [⟨1, 10, 0⟩] ∧
    ¬ CartInv [⟨1, 10, 0⟩] := by
  exact ⟨by decide, by decide⟩

/-- Claim C5 (amended): after every sequence of cart `add`/`remove` calls *in
which every `add` is called with a positive quantity*, the cart holds at most
one line per distinct `product_id`, every line's count is positive (a line
whose count reaches ≤ 0 is removed entirely), and `get_cart_total()` equals
the sum over lines of snapshot price times current count. -/
theorem cart_invariant_after_positive_ops (catalog : List Product) (ops : List CartOp)
    (hops : ∀ op ∈ ops, op.positiveAdd) :
    CartInv (applyCartOps catalog [] ops) ∧
    getCartTotal (applyCartOps catalog [] ops) =
      ((applyCartOps catalog [] ops).map (fun it => it.price * (it.count : ℚ))).sum :=
  ⟨applyCartOps_inv ⟨by simp, by simp⟩ hops, rfl⟩

/-- Witness for `cart_invariant_after_positive_ops` at the concrete call
sequence add(1,2); add(2,1); remove(1,1). -/
theorem cart_invariant_after_positive_ops_witness :
    (∀ op ∈ [CartOp.add 1 2, CartOp.add 2 1, CartOp.remove 1 1], op.positiveAdd) ∧
    (CartInv (applyCartOps demoProducts [] [CartOp.add 1 2, CartOp.add 2 1, CartOp.remove 1 1]) ∧
      getCartTotal (applyCartOps demoProducts [] [CartOp.add 1 2, CartOp.add 2 1, CartOp.remove 1 1]) =
        ((applyCartOps demoProducts [] [CartOp.add 1 2, CartOp.add 2 1, CartOp.remove 1 1]).map
          (fun it => it.price * (it.count : ℚ))).sum) :=
  ⟨by decide,
    cart_invariant_after_positive_ops demoProducts
      [CartOp.add 1 2, CartOp.add 2 1, CartOp.remove 1 1] (by decide)⟩

/-! ## Order store lemmas -/

theorem findOrder_mem {orders : List Order} {oid : Nat} {order : Order}
    (h : findOrder orders oid = some order) : order ∈ orders ∧ order.id = oid := by
  refine ⟨List.mem_of_find?_eq_some h, ?_⟩
  have h' := List.find?_some h
  simpa using h'

theorem mem_updateOrder_of_mem {orders : List Order} {oid : Nat} {f : Order → Order}
    {o : Order} (ho : o ∈ orders) :
    (if o.id = oid then f o else o) ∈ updateOrder orders oid f :=
  List.mem_map_of_mem _ ho

theorem mem_of_mem_updateOrder {orders : List Order} {oid : Nat} {f : Order → Order}
    {o' : Order} (h : o' ∈ updateOrder orders oid f) :
    ∃ o ∈ orders, o' = if o.id = oid then f o else o := by
  obtain ⟨o, ho, h'⟩ := List.mem_map.mp h
  exact ⟨o, ho, h'.symm⟩

theorem updateOrder_map_id {orders : List Order} {oid : Nat} {f : Order → Order}
    (hf : ∀ o, (f o).id = o.id) :
    (updateOrder orders oid f).map Order.id = orders.map Order.id := by
  unfold updateOrder
  rw [List.map_map]
  refine List.map_congr_left ?_
  intro o ho
  by_cases h : o.id = oid
  · simp [h, hf]
  · simp [h]

theorem updateOrder_append_fresh {orders : List Order} {oid : Nat} {f : Order → Order}
    {o : Order} (h : ∀ x ∈ orders, x.id ≠ oid) (ho : o.id = oid) :
    updateOrder (orders ++ [o]) oid f = orders ++ [f o] := by
  unfold updateOrder
  rw [List.map_append]
  congr 1
  · conv_rhs => rw [← List.map_id orders]
    exact List.map_congr_left (fun a ha => by simp [h a ha])
  · simp [ho]

/-- The item-creation loop touches only the `OrderItem` table. -/
theorem createOrderItems_preserves (db : DB) (oid : Nat) (l : List (Nat × ℤ)) :
    ((createOrderItems db oid l).2).orders = db.orders ∧
    ((createOrderItems db oid l).2).nextOrderId = db.nextOrderId ∧
    ((createOrderItems db oid l).2).products = db.products ∧
    ((createOrderItems db oid l).2).payments = db.payments ∧
    ((createOrderItems db oid l).2).deliveryTypes = db.deliveryTypes := by
  induction l generalizing db with
  | nil => exact ⟨rfl, rfl, rfl, rfl, rfl⟩
  | cons pc rest ih =>
    simp only [createOrderItems]
    cases hf : findProduct db.products pc.1 with
    | none => exact ⟨rfl, rfl, rfl, rfl, rfl⟩
    | some p => exact ih (addItem db oid pc.1 pc.2)

/-- When every posted product exists, the item-creation loop succeeds and
appends exactly one `OrderItem` row per posted line. -/
theorem createOrderItems_all_found {db : DB} {oid : Nat} {l : List (Nat × ℤ)}
    (h : ∀ pc ∈ l, (findProduct db.products pc.1).isSome) :
    createOrderItems db oid l =
      (true, { db with orderItems := db.orderItems ++ l.map (fun pc => ⟨oid, pc.1, pc.2⟩) }) := by
  induction l generalizing db with
  | nil => simp [createOrderItems]
  | cons pc rest ih =>
    obtain ⟨p, hp⟩ := Option.isSome_iff_exists.mp (h pc (List.mem_cons_self _ _))
    simp only [createOrderItems, hp]
    rw [@ih (addItem db oid pc.1 pc.2) (fun x hx => h x (List.mem_cons_of_mem pc hx))]
    simp [addItem]

/-- The row update a successful confirmation performs: the validated fields
are written and the status becomes `"confirmed"`. -/
def confirmUpdate (v : ConfirmPayload) (o : Order) : Order :=
  { o with
    deliveryType := v.deliveryType
    paymentType := v.paymentType
    city := v.city
    address := v.address
    totalCost := v.totalCost
    status := "confirmed" }

/-- The row update a successful payment performs: only the status changes. -/
def setPaid (o : Order) : Order :=
  { o with status := "paid" }

/-- The final write of a successful checkout: the cart total and
`status = "accepted"`. -/
def acceptWith (total : ℚ) (o : Order) : Order :=
  { o with totalCost := total, status := "accepted" }

/-- Shape of a successful confirmation: the validated payload is written to
the order row and the status becomes `"confirmed"`. -/
theorem orderDetailPost_ok_eq (db : DB) (r oid : Nat) (order : Order)
    (p v : ConfirmPayload)
    (hfind : findOrder db.orders oid = some order)
    (hown : order.profile = some r) (hpaid : order.status ≠ "paid")
    (hval : orderConfirmValidate db.deliveryTypes p = .ok v) :
    orderDetailPost db r oid p =
      (Response.ok200, { db with orders := updateOrder db.orders oid (confirmUpdate v) }) := by
  simp [orderDetailPost, hfind, hown, hpaid, hval]
  rfl

/-! ## C1 — payment success and the Payment table -/

/-- Claim C1 — the code violates the claim.  `PaymentView.post` instantiates
`PaymentSerializer(order, data=request.data)` with the *Order* as serializer
instance, so a valid submission takes `ModelSerializer.update` (which only
re-saves the order) instead of the serializer's `create`: the order's status
does advance to `"paid"`, but no `Payment` row is ever persisted — for any
database, requester, order and payload the `Payment` table is unchanged, and
in particular at the concrete failing input (owner pays a confirmed order
with a fully valid card). -/
theorem payment_success_creates_no_payment_row :
    (∀ (db : DB) (r oid : Nat) (p : PaymentPayload),
      (paymentViewPost db r oid p).2.payments = db.payments) ∧
    (paymentViewPost demoDB 1 1 validCard).1 = Response.ok200 ∧
    findOrder (paymentViewPost demoDB 1 1 validCard).2.orders 1 =
      some { demoOrder with status := "paid" } := by
  refine ⟨?_, by decide, by decide⟩
  intro db r oid p
  simp only [paymentViewPost]
  cases h : findOrder db.orders oid with
  | none => rfl
  | some order =>
    by_cases hown : order.profile ≠ some r
    · simp [hown]
    · by_cases hpaid : order.status = "paid"
      · simp [hown, hpaid]
      · cases he : paymentErrors p <;> simp [hown, hpaid, he]

/-! ## C3 — checkout atomicity -/

/-- Claim C3 — the code violates the claim.  Checkout creates the `Order` row
before iterating over the posted lines, opens no transaction, and lets
`Product.DoesNotExist` escape uncaught (HTTP 500, not `NotFound`): posting
lines `[(1, 1), (99, 1)]` against a catalog without product 99 leaves the
fresh order (pk 2, status still `""`) **and** the `OrderItem` for product 1
persisted. -/
theorem checkout_missing_product_leaves_partial_order :
    findProduct demoDB.products 99 = none ∧
    (orderViewPost demoDB ⟨[], none⟩ 1 [(1, 1), (99, 1)]).1 = Response.serverError ∧
    (orderViewPost demoDB ⟨[], none⟩ 1 [(1, 1), (99, 1)]).2.1.orders =
      demoDB.orders ++ [newOrder 2 1] ∧
    (orderViewPost demoDB ⟨[], none⟩ 1 [(1, 1), (99, 1)]).2.1.orderItems = [⟨2, 1, 1⟩] := by
  exact ⟨by decide, by decide, by decide, by decide⟩

/-! ## C8 — successful checkout -/

/-- Claim C8: with a fresh session (no `order_id` key — nothing in the
repository ever writes one) and every posted product present in the catalog,
checkout creates one new order whose `totalCost` is the session cart's
computed total and whose status is `"accepted"`, appends one `OrderItem` per
posted line, clears the session cart, and returns the new order's id with
HTTP 201.  Instantiated at an empty cart and empty line list this gives a
legal checkout with zero `OrderItem`s and `totalCost = getCartTotal [] = 0`. -/
theorem checkout_success (db : DB) (sess : Session) (profile : Nat)
    (pd : List (Nat × ℤ))
    (hsess : sess.order_id = none)
    (hids : ∀ o ∈ db.orders, o.id < db.nextOrderId)
    (hprod : ∀ pc ∈ pd, (findProduct db.products pc.1).isSome) :
    (orderViewPost db sess profile pd).1 = Response.created db.nextOrderId ∧
    (orderViewPost db sess profile pd).2.1.orders =
      db.orders ++ [{ newOrder db.nextOrderId profile with
        totalCost := getCartTotal sess.cart, status := "accepted" }] ∧
    (orderViewPost db sess profile pd).2.1.orderItems =
      db.orderItems ++ pd.map (fun pc => ⟨db.nextOrderId, pc.1, pc.2⟩) ∧
    (orderViewPost db sess profile pd).2.2 = (⟨[], none⟩ : Session) := by
  have hpd : ∀ pc ∈ pd,
      (findProduct ({ db with
        orders := db.orders ++ [newOrder db.nextOrderId profile]
        nextOrderId := db.nextOrderId + 1 } : DB).products pc.1).isSome := hprod
  have hcoi := @createOrderItems_all_found
    ({ db with
      orders := db.orders ++ [newOrder db.nextOrderId profile]
      nextOrderId := db.nextOrderId + 1 } : DB) db.nextOrderId pd hpd
  refine ⟨?_, ?_, ?_, ?_⟩
  · simp only [orderViewPost, hsess, hcoi]
  · simp only [orderViewPost, hsess, hcoi]
    exact updateOrder_append_fresh (fun x hx h => absurd h (Nat.ne_of_lt (hids x hx))) rfl
  · simp only [orderViewPost, hsess, hcoi]
  · simp only [orderViewPost, hsess, hcoi, cartClear]

/-- Witness for `checkout_success`: checking out the empty cart with no
posted lines against the demo database yields HTTP 201 with the fresh order
pk 2, `totalCost = 0`, status `"accepted"`, no new `OrderItem`s, and an empty
session cart. -/
theorem checkout_success_witness :
    ((⟨[], none⟩ : Session).order_id = none ∧
      (∀ o ∈ demoDB.orders, o.id < demoDB.nextOrderId)) ∧
    (orderViewPost demoDB ⟨[], none⟩ 1 []).1 = Response.created demoDB.nextOrderId ∧
    (orderViewPost demoDB ⟨[], none⟩ 1 []).2.1.orders =
      demoDB.orders ++ [{ newOrder demoDB.nextOrderId 1 with
        totalCost := getCartTotal [], status := "accepted" }] ∧
    (orderViewPost demoDB ⟨[], none⟩ 1 []).2.1.orderItems =
      demoDB.orderItems ++
        List.map (fun pc : Nat × ℤ => (⟨demoDB.nextOrderId, pc.1, pc.2⟩ : OrderItem)) [] ∧
    (orderViewPost demoDB ⟨[], none⟩ 1 []).2.2 = (⟨[], none⟩ : Session) :=
  ⟨⟨by decide, by decide⟩,
    checkout_success demoDB ⟨[], none⟩ 1 [] (by decide) (by decide) (by simp)⟩

/-! ## C4 — paid orders are immutable -/

/-- Claim C4: once an order's status is `"paid"`, every confirmation and every
payment attempt against it fails with HTTP 403, with detail
"Paid orders cannot be updated." whenever the requester is the order's owner
(a non-owner is also rejected with 403, by the ownership guard that runs
first), regardless of the payload, and the database — the order, its items
and its payments — is left unchanged. -/
theorem paid_order_rejects_all_mutation (db : DB) (requester oid : Nat) (order : Order)
    (p : ConfirmPayload) (q : PaymentPayload)
    (hfind : findOrder db.orders oid = some order)
    (hpaid : order.status = "paid") :
    ((orderDetailPost db requester oid p).1.isForbidden = true ∧
      (orderDetailPost db requester oid p).2 = db) ∧
    ((paymentViewPost db requester oid q).1.isForbidden = true ∧
      (paymentViewPost db requester oid q).2 = db) ∧
    (order.profile = some requester →
      (orderDetailPost db requester oid p).1 =
        Response.forbidden "Paid orders cannot be updated." ∧
      (paymentViewPost db requester oid q).1 =
        Response.forbidden "Paid orders cannot be updated.") := by
  by_cases hown : order.profile = some requester
  · simp [orderDetailPost, paymentViewPost, hfind, hown, hpaid, Response.isForbidden]
  · simp [orderDetailPost, paymentViewPost, hfind, hown, Response.isForbidden]

/-- Witness for `paid_order_rejects_all_mutation`: the owner of the already
paid demo order is rejected on both endpoints with the dedicated detail. -/
theorem paid_order_rejects_all_mutation_witness :
    findOrder paidDB.orders 1 = some paidOrder ∧ paidOrder.status = "paid" ∧
    (paidOrder.profile = some 1 →
      (orderDetailPost paidDB 1 1 confirmFree1999).1 =
        Response.forbidden "Paid orders cannot be updated." ∧
      (paymentViewPost paidDB 1 1 validCard).1 =
        Response.forbidden "Paid orders cannot be updated.") :=
  ⟨by decide, by decide,
    (paid_order_rejects_all_mutation paidDB 1 1 paidOrder confirmFree1999 validCard
      (by decide) (by decide)).2.2⟩

/-! ## C9 — non-negativity of totalCost -/

/-- A confirmation payload with a negative client-supplied subtotal. -/
def negConfirm : ConfirmPayload := ⟨"free", "online", "London", "221b, Bakers str.", -300⟩

/-- Claim C9 — counterexample.  Confirmation trusts the client-supplied
subtotal, which DRF's decimal field does not bound below: confirming the
demo order (totalCost 50 ≥ 0) with subtotal `-300` and the free-delivery
rule `{min_cost 2000, fee 200}` succeeds and stores
`totalCost = -300 + 200 = -100 < 0`, so confirmation does not preserve the
non-negativity invariant. -/
theorem confirmation_can_make_total_negative :
    demoOrder.totalCost = 50 ∧ (0 : ℚ) ≤ 50 ∧
    (orderDetailPost demoDB 1 1 negConfirm).1 = Response.ok200 ∧
    (orderDetailPost demoDB 1 1 negConfirm).2.orders =
      [⟨1, some 1, "free", "online", -100, "confirmed", "London", "221b, Bakers str."⟩] ∧
    ((-100 : ℚ) < 0) := by
  have hval : orderConfirmValidate demoDB.deliveryTypes negConfirm =
      .ok { negConfirm with totalCost := -100 } := by
    have hfree : ¬ (negConfirm.deliveryType = "free" ∧ dtFree.min_cost < negConfirm.totalCost) := by
      rintro ⟨-, hlt⟩
      norm_num [dtFree, negConfirm] at hlt
    have hfd : (demoDB.deliveryTypes.find? fun dt => dt.type = negConfirm.deliveryType) =
        some dtFree := by decide
    simp only [orderConfirmValidate,
      if_pos (show confirmFieldErrors negConfirm = [] by decide), hfd, if_neg hfree]
    norm_num [negConfirm, dtFree]
  have hstep := orderDetailPost_ok_eq demoDB 1 1 demoOrder negConfirm
    { negConfirm with totalCost := -100 } (by decide) (by decide) (by decide) hval
  refine ⟨by decide, by norm_num, ?_, ?_, by norm_num⟩
  · rw [hstep]
  · rw [hstep]
    simp [updateOrder, demoDB, demoOrder, negConfirm, confirmUpdate]

/-- Side conditions under which an operation cannot introduce a negative
`totalCost`: a checkout's session cart total is non-negative, and a
confirmation's client-supplied subtotal and the configured delivery fees are
non-negative.  (The code enforces none of these bounds.) -/
def OpSafe (s : Sys) : Op → Prop
  | .checkout _ _ => 0 ≤ getCartTotal s.session.cart
  | .confirm _ _ p => 0 ≤ p.totalCost ∧ ∀ dt ∈ s.db.deliveryTypes, 0 ≤ dt.delivery_cost
  | .pay _ _ _ => True

/-- Validated confirmation data keeps a non-negative total when the supplied
subtotal and all configured fees are non-negative. -/
theorem orderConfirmValidate_nonneg {dts : List OrderDeliveryType} {p v : ConfirmPayload}
    (hval : orderConfirmValidate dts p = .ok v) (hp : 0 ≤ p.totalCost)
    (hdts : ∀ dt ∈ dts, 0 ≤ dt.delivery_cost) : 0 ≤ v.totalCost := by
  unfold orderConfirmValidate at hval
  split at hval
  · split at hval
    next => exact Except.noConfusion hval
    next dt heq =>
      split at hval
      next hfree =>
        injection hval with h
        subst h
        exact hp
      next hfree =>
        injection hval with h
        subst h
        exact add_nonneg hp (hdts dt (List.mem_of_find?_eq_some heq))
  · exact Except.noConfusion hval

/-- Claim C9 (amended): every core operation preserves non-negativity of every
order's `totalCost` *provided* the inputs the code chooses to trust are
themselves non-negative (`OpSafe`): the session cart total at checkout, and
the client-supplied subtotal plus the configured delivery fees at
confirmation.  Without those side conditions the invariant fails
(see the counterexample). -/
theorem total_cost_nonneg_preserved (s : Sys) (op : Op) (hsafe : OpSafe s op)
    (h : ∀ o ∈ s.db.orders, 0 ≤ o.totalCost) :
    ∀ o ∈ (applyOp s op).db.orders, 0 ≤ o.totalCost := by
  cases op with
  | checkout pr pd =>
    intro o' ho'
    simp only [OpSafe] at hsafe
    simp only [applyOp, orderViewPost] at ho'
    split at ho'
    next oid hs =>
      -- session carried an order_id: the existing order row is reused
      split at ho'
      next hf => exact h o' ho'
      next order hf =>
        split at ho'
        next db₂ hc =>
          simp only at ho'
          have he : db₂ = (createOrderItems s.db order.id pd).2 := by rw [hc]
          rw [he, (createOrderItems_preserves s.db order.id pd).1] at ho'
          exact h o' ho'
        next db₂ hc =>
          simp only at ho'
          obtain ⟨o, ho, hoe⟩ := mem_of_mem_updateOrder ho'
          have he : db₂ = (createOrderItems s.db order.id pd).2 := by rw [hc]
          rw [he, (createOrderItems_preserves s.db order.id pd).1] at ho
          by_cases hid : o.id = order.id
          · rw [hoe, if_pos hid]
            exact hsafe
          · rw [hoe, if_neg hid]
            exact h o ho
    next hs =>
      -- fresh order: rows are old rows, the new default row, or updated ones
      have hnn : ∀ x ∈ s.db.orders ++ [newOrder s.db.nextOrderId pr], 0 ≤ x.totalCost := by
        intro x hx
        rcases List.mem_append.mp hx with hx | hx
        · exact h x hx
        · simp only [List.mem_singleton] at hx
          subst hx
          exact le_refl 0
      split at ho'
      next db₂ hc =>
        simp only at ho'
        have he : db₂ = (createOrderItems
            { s.db with
              orders := s.db.orders ++ [newOrder s.db.nextOrderId pr]
              nextOrderId := s.db.nextOrderId + 1 } s.db.nextOrderId pd).2 := by rw [hc]
        rw [he, (createOrderItems_preserves _ _ pd).1] at ho'
        exact hnn o' ho'
      next db₂ hc =>
        simp only at ho'
        obtain ⟨o, ho, hoe⟩ := mem_of_mem_updateOrder ho'
        have he : db₂ = (createOrderItems
            { s.db with
              orders := s.db.orders ++ [newOrder s.db.nextOrderId pr]
              nextOrderId := s.db.nextOrderId + 1 } s.db.nextOrderId pd).2 := by rw [hc]
        rw [he, (createOrderItems_preserves _ _ pd).1] at ho
        by_cases hid : o.id = s.db.nextOrderId
        · rw [hoe, if_pos hid]
          exact hsafe
        · rw [hoe, if_neg hid]
          exact hnn o ho
  | confirm pr oid p =>
    intro o' ho'
    simp only [OpSafe] at hsafe
    simp only [applyOp, orderDetailPost] at ho'
    split at ho'
    next hf => exact h o' ho'
    next order hf =>
      split at ho'
      next hown => exact h o' ho'
      next hown =>
        split at ho'
        next hpaid => exact h o' ho'
        next hpaid =>
          split at ho'
          next errs hval => exact h o' ho'
          next v hval =>
            simp only at ho'
            obtain ⟨o, ho, hoe⟩ := mem_of_mem_updateOrder ho'
            by_cases hid : o.id = oid
            · rw [hoe, if_pos hid]
              exact orderConfirmValidate_nonneg hval hsafe.1 hsafe.2
            · rw [hoe, if_neg hid]
              exact h o ho
  | pay pr oid p =>
    intro o' ho'
    simp only [applyOp, paymentViewPost] at ho'
    split at ho'
    next hf => exact h o' ho'
    next order hf =>
      split at ho'
      next hown => exact h o' ho'
      next hown =>
        split at ho'
        next hpaid => exact h o' ho'
        next hpaid =>
          split at ho'
          next he =>
            simp only at ho'
            obtain ⟨o, ho, hoe⟩ := mem_of_mem_updateOrder ho'
            by_cases hid : o.id = oid
            · rw [hoe, if_pos hid]
              exact h o ho
            · rw [hoe, if_neg hid]
              exact h o ho
          next errs he =>
            exact h o' ho'

/-- Witness for `total_cost_nonneg_preserved`: confirming the demo order with
the non-negative subtotal 1999.00 keeps every stored total non-negative. -/
theorem total_cost_nonneg_preserved_witness :
    OpSafe demoSys (Op.confirm 1 1 confirmFree1999) ∧
    (∀ o ∈ demoSys.db.orders, 0 ≤ o.totalCost) ∧
    (∀ o ∈ (applyOp demoSys (Op.confirm 1 1 confirmFree1999)).db.orders, 0 ≤ o.totalCost) :=
  have hsafe : OpSafe demoSys (Op.confirm 1 1 confirmFree1999) := by
    refine ⟨by decide, ?_⟩
    intro dt hdt
    simp only [demoSys, demoDB, List.mem_singleton] at hdt
    subst hdt
    decide
  have hnn : ∀ o ∈ demoSys.db.orders, 0 ≤ o.totalCost := by
    intro o ho
    simp only [demoSys, demoDB, List.mem_singleton] at ho
    subst ho
    decide
  ⟨hsafe, hnn,
    total_cost_nonneg_preserved demoSys (Op.confirm 1 1 confirmFree1999) hsafe hnn⟩

/-! ## C2 — the status only moves forward -/

theorem statusRank_le_three (st : String) : statusRank st ≤ 3 := by
  by_cases h1 : st = "accepted" <;> by_cases h2 : st = "confirmed" <;>
    by_cases h3 : st = "paid" <;> simp [statusRank, h1, h2, h3]

theorem statusRank_le_two {st : String} (h : st ≠ "paid") : statusRank st ≤ 2 := by
  by_cases h1 : st = "accepted" <;> by_cases h2 : st = "confirmed" <;>
    simp [statusRank, h1, h2, h]

/-- Shape of a successful payment: only the order's status changes. -/
theorem paymentViewPost_ok_eq (db : DB) (r oid : Nat) (order : Order) (p : PaymentPayload)
    (hfind : findOrder db.orders oid = some order)
    (hown : order.profile = some r) (hpaid : order.status ≠ "paid")
    (hval : paymentErrors p = []) :
    paymentViewPost db r oid p =
      (Response.ok200, { db with orders := updateOrder db.orders oid setPaid }) := by
  simp [paymentViewPost, hfind, hown, hpaid, hval]
  rfl

/-- One core operation preserves the reachability invariant and never lowers
the status rank of any existing order. -/
theorem applyOp_inv_mono (s : Sys) (op : Op) (hinv : SysInv s) :
    SysInv (applyOp s op) ∧
    ∀ o ∈ s.db.orders, ∃ o' ∈ (applyOp s op).db.orders,
      o'.id = o.id ∧ statusRank o.status ≤ statusRank o'.status := by
  obtain ⟨hsess, hnd, hlt⟩ := hinv
  have base : SysInv s ∧ ∀ o ∈ s.db.orders, ∃ o' ∈ s.db.orders,
      o'.id = o.id ∧ statusRank o.status ≤ statusRank o'.status :=
    ⟨⟨hsess, hnd, hlt⟩, fun o ho => ⟨o, ho, rfl, le_refl _⟩⟩
  cases op with
  | pay pr oid p =>
    cases hf : findOrder s.db.orders oid with
    | none =>
      have heq : applyOp s (Op.pay pr oid p) = s := by
        simp [applyOp, paymentViewPost, hf]
      rw [heq]
      exact base
    | some order =>
      by_cases hown : order.profile = some pr
      · by_cases hpaid : order.status = "paid"
        · have heq : applyOp s (Op.pay pr oid p) = s := by
            simp [applyOp, paymentViewPost, hf, hown, hpaid]
          rw [heq]
          exact base
        · cases he : paymentErrors p with
          | cons a l =>
            have heq : applyOp s (Op.pay pr oid p) = s := by
              simp [applyOp, paymentViewPost, hf, hown, hpaid, he]
            rw [heq]
            exact base
          | nil =>
            have heq : applyOp s (Op.pay pr oid p) =
                ⟨{ s.db with orders := updateOrder s.db.orders oid setPaid }, s.session⟩ := by
              simp only [applyOp, paymentViewPost_ok_eq s.db pr oid order p hf hown hpaid he]
            rw [heq]
            refine ⟨⟨hsess, ?_, ?_⟩, ?_⟩
            · rw [@updateOrder_map_id s.db.orders oid setPaid (fun o => rfl)]
              exact hnd
            · intro o' ho'
              obtain ⟨o, ho, hoe⟩ := mem_of_mem_updateOrder ho'
              have hoid : o'.id = o.id := by
                rw [hoe]
                by_cases hid : o.id = oid <;> simp [hid, setPaid]
              rw [hoid]
              exact hlt o ho
            · intro o ho
              refine ⟨if o.id = oid then setPaid o else o,
                mem_updateOrder_of_mem ho, ?_, ?_⟩
              · by_cases hid : o.id = oid <;> simp [hid, setPaid]
              · by_cases hid : o.id = oid
                · rw [if_pos hid]
                  exact statusRank_le_three o.status
                · rw [if_neg hid]
      · have heq : applyOp s (Op.pay pr oid p) = s := by
          have hown' : order.profile ≠ some pr := hown
          simp [applyOp, paymentViewPost, hf, hown']
        rw [heq]
        exact base
  | confirm pr oid p =>
    cases hf : findOrder s.db.orders oid with
    | none =>
      have heq : applyOp s (Op.confirm pr oid p) = s := by
        simp [applyOp, orderDetailPost, hf]
      rw [heq]
      exact base
    | some order =>
      by_cases hown : order.profile = some pr
      · by_cases hpaid : order.status = "paid"
        · have heq : applyOp s (Op.confirm pr oid p) = s := by
            simp [applyOp, orderDetailPost, hf, hown, hpaid]
          rw [heq]
          exact base
        · cases hval : orderConfirmValidate s.db.deliveryTypes p with
          | error errs =>
            have heq : applyOp s (Op.confirm pr oid p) = s := by
              simp [applyOp, orderDetailPost, hf, hown, hpaid, hval]
            rw [heq]
            exact base
          | ok v =>
            have heq : applyOp s (Op.confirm pr oid p) =
                ⟨{ s.db with orders := updateOrder s.db.orders oid (confirmUpdate v) },
                  s.session⟩ := by
              simp only [applyOp,
                orderDetailPost_ok_eq s.db pr oid order p v hf hown hpaid hval]
            rw [heq]
            refine ⟨⟨hsess, ?_, ?_⟩, ?_⟩
            · rw [@updateOrder_map_id s.db.orders oid (confirmUpdate v) (fun o => rfl)]
              exact hnd
            · intro o' ho'
              obtain ⟨o, ho, hoe⟩ := mem_of_mem_updateOrder ho'
              have hoid : o'.id = o.id := by
                rw [hoe]
                by_cases hid : o.id = oid <;> simp [hid, confirmUpdate]
              rw [hoid]
              exact hlt o ho
            · intro o ho
              obtain ⟨horder, hoid⟩ := findOrder_mem hf
              refine ⟨if o.id = oid then confirmUpdate v o else o,
                mem_updateOrder_of_mem ho, ?_, ?_⟩
              · by_cases hid : o.id = oid <;> simp [hid, confirmUpdate]
              · by_cases hid : o.id = oid
                · have hoo : o = order :=
                    List.inj_on_of_nodup_map hnd ho horder (by rw [hid, hoid])
                  rw [if_pos hid]
                  refine le_trans (statusRank_le_two ?_) ?_
                  · rw [hoo]
                    exact hpaid
                  · simp [confirmUpdate, statusRank]
                · rw [if_neg hid]
      · have heq : applyOp s (Op.confirm pr oid p) = s := by
          have hown' : order.profile ≠ some pr := hown
          simp [applyOp, orderDetailPost, hf, hown']
        rw [heq]
        exact base
  | checkout pr pd =>
    have hndapp : ((s.db.orders ++ [newOrder s.db.nextOrderId pr]).map Order.id).Nodup := by
      rw [List.map_append, List.nodup_append]
      refine ⟨hnd, by simp, ?_⟩
      intro a ha hb
      simp only [List.map_cons, List.map_nil, List.mem_singleton] at hb
      obtain ⟨o, ho, rfl⟩ := List.mem_map.mp ha
      have hb' : o.id = s.db.nextOrderId := by simpa [newOrder] using hb
      have := hlt o ho
      omega
    have hltapp : ∀ o ∈ s.db.orders ++ [newOrder s.db.nextOrderId pr],
        o.id < s.db.nextOrderId + 1 := by
      intro o ho
      rcases List.mem_append.mp ho with ho | ho
      · exact Nat.lt_succ_of_lt (hlt o ho)
      · simp only [List.mem_singleton] at ho
        subst ho
        exact Nat.lt_succ_self _
    cases hc : createOrderItems
        { s.db with
          orders := s.db.orders ++ [newOrder s.db.nextOrderId pr]
          nextOrderId := s.db.nextOrderId + 1 } s.db.nextOrderId pd with
    | mk flag db₂ =>
      have horders : db₂.orders = s.db.orders ++ [newOrder s.db.nextOrderId pr] := by
        have hpre := (createOrderItems_preserves
          { s.db with
            orders := s.db.orders ++ [newOrder s.db.nextOrderId pr]
            nextOrderId := s.db.nextOrderId + 1 } s.db.nextOrderId pd).1
        rw [hc] at hpre
        exact hpre
      have hnext : db₂.nextOrderId = s.db.nextOrderId + 1 := by
        have hpre := (createOrderItems_preserves
          { s.db with
            orders := s.db.orders ++ [newOrder s.db.nextOrderId pr]
            nextOrderId := s.db.nextOrderId + 1 } s.db.nextOrderId pd).2.1
        rw [hc] at hpre
        exact hpre
      cases flag with
      | false =>
        have heq : applyOp s (Op.checkout pr pd) = ⟨db₂, s.session⟩ := by
          simp [applyOp, orderViewPost, hsess, hc]
        rw [heq]
        refine ⟨⟨hsess, ?_, ?_⟩, ?_⟩
        · rw [horders]
          exact hndapp
        · intro o ho
          rw [horders] at ho
          rw [hnext]
          exact hltapp o ho
        · intro o ho
          refine ⟨o, ?_, rfl, le_refl _⟩
          rw [horders]
          exact List.mem_append_left _ ho
      | true =>
        have heq : applyOp s (Op.checkout pr pd) =
            ⟨{ db₂ with orders := updateOrder db₂.orders s.db.nextOrderId (acceptWith (getCartTotal s.session.cart)) },
              ⟨[], none⟩⟩ := by
          simp only [applyOp, orderViewPost, hsess, hc]
          rfl
        rw [heq]
        refine ⟨⟨rfl, ?_, ?_⟩, ?_⟩
        · rw [@updateOrder_map_id db₂.orders s.db.nextOrderId
            (acceptWith (getCartTotal s.session.cart)) (fun o => rfl), horders]
          exact hndapp
        · intro o' ho'
          obtain ⟨o, ho, hoe⟩ := mem_of_mem_updateOrder ho'
          rw [horders] at ho
          have hoid : o'.id = o.id := by
            rw [hoe]
            by_cases hid : o.id = s.db.nextOrderId <;> simp [hid, acceptWith]
          rw [hoid, hnext]
          exact hltapp o ho
        · intro o ho
          have hne : ¬ o.id = s.db.nextOrderId := Nat.ne_of_lt (hlt o ho)
          refine ⟨o, ?_, rfl, le_refl _⟩
          have hmem : o ∈ db₂.orders := by
            rw [horders]
            exact List.mem_append_left _ ho
          have hup := @mem_updateOrder_of_mem db₂.orders s.db.nextOrderId
            (acceptWith (getCartTotal s.session.cart)) o hmem
          rwa [if_neg hne] at hup

/-- Claim C2: starting from any reachable system state (fresh sessions carry no
`order_id`, pks are unique and below the autoincrement counter), after any
sequence of core operations — checkouts, confirmations, payments — every
order that existed before still exists with the same pk and a status that
never moved backward along `accepted → confirmed → paid`. -/
theorem order_status_never_backward (s : Sys) (ops : List Op) (o : Order)
    (hinv : SysInv s) (ho : o ∈ s.db.orders) :
    ∃ o' ∈ (applyOps s ops).db.orders, o'.id = o.id ∧
      statusRank o.status ≤ statusRank o'.status := by
  induction ops generalizing s o with
  | nil => exact ⟨o, ho, rfl, le_refl _⟩
  | cons op rest ih =>
    obtain ⟨hinv', hmono⟩ := applyOp_inv_mono s op hinv
    obtain ⟨o1, ho1, hid1, hr1⟩ := hmono o ho
    obtain ⟨o2, ho2, hid2, hr2⟩ := ih (applyOp s op) o1 hinv' ho1
    refine ⟨o2, ?_, by rw [hid2, hid1], le_trans hr1 hr2⟩
    simpa [applyOps, List.foldl_cons] using ho2

/-- Witness for `order_status_never_backward`: the demo state (one
`confirmed` order) after a successful payment still holds order pk 1 with a
status rank at least that of `confirmed`. -/
theorem order_status_never_backward_witness :
    SysInv demoSys ∧ demoOrder ∈ demoSys.db.orders ∧
    (∃ o' ∈ (applyOps demoSys [Op.pay 1 1 validCard]).db.orders, o'.id = demoOrder.id ∧
      statusRank demoOrder.status ≤ statusRank o'.status) :=
  ⟨by decide, by decide,
    order_status_never_backward demoSys [Op.pay 1 1 validCard] demoOrder
      (by decide) (by decide)⟩

/-! ## C10 — ownership guard -/

/-- Claim C10: for every existing order and every authenticated requester whose
profile is not the order's owning profile, confirmation and payment both fail
with `Forbidden` (HTTP 403, the two views' permission-denied details) — not
`NotFound` — whatever the payload, and the database is unchanged. -/
theorem non_owner_gets_forbidden (db : DB) (requester oid : Nat) (order : Order)
    (p : ConfirmPayload) (q : PaymentPayload)
    (hfind : findOrder db.orders oid = some order)
    (hmm : order.profile ≠ some requester) :
    orderDetailPost db requester oid p =
      (Response.forbidden "You do not have permission to update this order.", db) ∧
    paymentViewPost db requester oid q =
      (Response.forbidden "You do not have permission to confirm payment for this order.", db) := by
  constructor <;> simp [orderDetailPost, paymentViewPost, hfind, hmm]

/-! ## C6 — confirmation and the delivery fee rule -/

/-- Claim C6: for an existing, owned, not-yet-paid order with a well-formed
payload, confirmation looks up the delivery pricing rule by `deliveryType`:
if no rule exists it fails with a `ValidationError` naming the unsupported
type and leaves the database (hence the order and its status) unchanged; if
the type is the `free` type and the client-supplied subtotal exceeds
`min_cost` the fee is waived (`totalCost` is stored unchanged), otherwise
`delivery_cost` is added; on success the fields are persisted and the status
advances to `"confirmed"`. -/
theorem confirm_delivery_fee_rule (db : DB) (requester oid : Nat) (order : Order)
    (p : ConfirmPayload)
    (hfind : findOrder db.orders oid = some order)
    (hown : order.profile = some requester)
    (hpaid : order.status ≠ "paid")
    (hflds : confirmFieldErrors p = []) :
    (db.deliveryTypes.find? (fun dt => dt.type = p.deliveryType) = none →
      orderDetailPost db requester oid p =
        (Response.badRequest
          [("non_field_errors", "Unsupported delivery type: " ++ p.deliveryType)], db)) ∧
    (∀ dt, db.deliveryTypes.find? (fun d => d.type = p.deliveryType) = some dt →
      orderDetailPost db requester oid p =
        (Response.ok200,
          { db with orders := updateOrder db.orders oid (fun o =>
              { o with
                deliveryType := p.deliveryType
                paymentType := p.paymentType
                city := p.city
                address := p.address
                totalCost :=
                  if p.deliveryType = "free" ∧ dt.min_cost < p.totalCost then p.totalCost
                  else p.totalCost + dt.delivery_cost
                status := "confirmed" }) })) := by
  constructor
  · intro hnone
    simp [orderDetailPost, hfind, hown, hpaid, orderConfirmValidate, hflds, hnone]
  · intro dt hdt
    by_cases hf1 : p.deliveryType = "free"
    · rw [hf1] at hdt
      by_cases hf2 : dt.min_cost < p.totalCost
      · simp [orderDetailPost, hfind, hown, hpaid, orderConfirmValidate, hflds, hdt, hf1, hf2]
      · simp [orderDetailPost, hfind, hown, hpaid, orderConfirmValidate, hflds, hdt, hf1, hf2]
    · simp [orderDetailPost, hfind, hown, hpaid, orderConfirmValidate, hflds, hdt, hf1]

/-- Witness for `confirm_delivery_fee_rule`: the spec's worked example —
subtotal 1999.00 with the free-delivery rule `{min_cost 2000, fee 200}`
yields `totalCost = 2199.00`; subtotal 2999.00 is waived and yields
`totalCost = 2999.00`; both requests confirm the order. -/
theorem confirm_delivery_fee_rule_witness :
    orderDetailPost demoDB 1 1 confirmFree1999 =
      (Response.ok200,
        { demoDB with orders :=
            [⟨1, some 1, "free", "online", 2199, "confirmed", "London", "221b, Bakers str."⟩] }) ∧
    orderDetailPost demoDB 1 1 confirmFree2999 =
      (Response.ok200,
        { demoDB with orders :=
            [⟨1, some 1, "free", "online", 2999, "confirmed", "London", "221b, Bakers str."⟩] }) := by
  have h1 := (confirm_delivery_fee_rule demoDB 1 1 demoOrder confirmFree1999
    (by decide) (by decide) (by decide) (by decide)).2 dtFree (by decide)
  have h2 := (confirm_delivery_fee_rule demoDB 1 1 demoOrder confirmFree2999
    (by decide) (by decide) (by decide) (by decide)).2 dtFree (by decide)
  rw [h1, h2]
  constructor <;>
    norm_num [updateOrder, demoDB, demoOrder, dtFree, confirmFree1999, confirmFree2999]

/-! ## C7 — card field validation -/

/-- Claim C7 — counterexample.  The claim requires the expiry month to be
*exactly two* digits, but `validate_month` never checks the length: the
one-digit month `"1"` passes every validator and the payment succeeds. -/
theorem payment_month_one_digit_accepted :
    cardMonth1.month.length = 1 ∧
    paymentErrors cardMonth1 = [] ∧
    (paymentViewPost demoDB 1 1 cardMonth1).1 = Response.ok200 := by
  exact ⟨by decide, by decide, by decide⟩

/-- Claim C7 (amended): payment validation accepts exactly those card payloads
where the expiry year is 4 digits (`validate_year`), the expiry month is
**1 or 2** digits with numeric value between 1 and 12 (the model field's
max-length 2 plus `validate_month`), the security code is 3 or 4 digits
(`validate_code`), and the `number`/`name` fields fit their column widths;
a bad month yields the month-scoped message, and any violation makes the
payment endpoint return the field-scoped 400 with the database — hence the
order's status — unchanged. -/
theorem payment_validation_characterization (p : PaymentPayload) :
    (paymentErrors p = [] ↔
      p.number.length ≤ 8 ∧ p.name.length ≤ 100 ∧
      validate_year p.year = true ∧
      (p.month.length ≤ 2 ∧ validate_month p.month = true) ∧
      validate_code p.code = true) ∧
    (validate_month p.month = false → p.month.length ≤ 2 →
      ("month", "Expiry month must be a number between 01 and 12.") ∈ paymentErrors p) ∧
    (∀ (db : DB) (r oid : Nat) (order : Order),
      findOrder db.orders oid = some order → order.profile = some r →
      order.status ≠ "paid" → paymentErrors p ≠ [] →
      paymentViewPost db r oid p = (Response.badRequest (paymentErrors p), db)) := by
  refine ⟨?_, ?_, ?_⟩
  · simp only [paymentErrors, List.append_eq_nil, numberErrors_eq_nil, nameErrors_eq_nil,
      yearErrors_eq_nil, monthErrors_eq_nil, codeErrors_eq_nil, and_assoc]
  · intro hm h2
    have h2' : ¬ p.month.length > 2 := by omega
    have hmem : ("month", "Expiry month must be a number between 01 and 12.") ∈
        monthErrors p.month := by
      simp [monthErrors, h2', hm]
    simp [paymentErrors, List.mem_append, hmem]
  · intro db r oid order hfind hown hpaid herr
    simp only [paymentViewPost, hfind]
    cases he : paymentErrors p with
    | nil => exact absurd he herr
    | cons a l => simp [hown, hpaid, he]

/-- Witness for `payment_validation_characterization`: the test suite's
`month = "13"` payload is rejected with the month-scoped message and the
database is unchanged. -/
theorem payment_validation_characterization_witness :
    paymentViewPost demoDB 1 1 cardMonth13 =
      (Response.badRequest
        [("month", "Expiry month must be a number between 01 and 12.")], demoDB) := by
  have h := (payment_validation_characterization cardMonth13).2.2 demoDB 1 1 demoOrder
    (by decide) (by decide) (by decide) (by decide)
  rw [h]
  decide

/-- Witness for `non_owner_gets_forbidden`: requester with profile pk 2
against the demo order owned by profile pk 1, with fully valid payloads. -/
theorem non_owner_gets_forbidden_witness :
    findOrder demoDB.orders 1 = some demoOrder ∧ demoOrder.profile ≠ some 2 ∧
    (orderDetailPost demoDB 2 1 confirmFree1999 =
      (Response.forbidden "You do not have permission to update this order.", demoDB) ∧
    paymentViewPost demoDB 2 1 validCard =
      (Response.forbidden "You do not have permission to confirm payment for this order.", demoDB)) :=
  ⟨by decide, by decide,
    non_owner_gets_forbidden demoDB 2 1 demoOrder confirmFree1999 validCard
      (by decide) (by decide)⟩

end Marketplace
